import Mathlib

/-!
# Verification of the RDO extractor (`app.py`)

Shallow embedding of the core of `app.py` — the section locator
(`_recorta_bloco`), the record reconstructor (`_parse_secao`), the report
date extractor (`extrair_data_rdo`) and the batch orchestrator
(`processar_arquivos`) — together with theorems settling the behavioural
claims about them.

Conventions of the embedding:
* Python strings are Lean `String`s (or `List Char` where index arithmetic
  matters, as in the anchor search and the date regex).
* Python's arbitrary-precision non-negative ints are `Nat`.
* The `while` scan loop of `_parse_secao` is embedded with an explicit fuel
  parameter; fuel-sufficiency (the loop's cursor strictly advances) is
  proved, not assumed.
* `unicodedata` NFD normalization, Mn-stripping and upper-casing are
  modelled character-wise for the Latin repertoire that occurs in the
  program's string literals; Python's `str.strip` is modelled over ASCII
  whitespace.  `re.fullmatch(r"\d+", ...)` is modelled over the ASCII
  digits.
-/

namespace RDO

/-- ASCII whitespace recognised by the model of Python's `str.strip`. -/
def ehEspaco (c : Char) : Bool :=
  c = ' ' || c = '\t' || c = '\n' || c = '\r' || c = '\x0b' || c = '\x0c'

/-- A decimal digit, as matched by `\d` in the source's regexes (ASCII range). -/
def ehDigito (c : Char) : Bool := '0' ≤ c && c ≤ '9'

/-- Model of Python's `str.strip` on a character list. -/
def apararLC (l : List Char) : List Char :=
  ((l.dropWhile ehEspaco).reverse.dropWhile ehEspaco).reverse

/-- Model of Python's `str.strip` on a `String`. -/
def aparar (s : String) : String := String.mk (apararLC s.data)

/-- `re.fullmatch(r"\d+", s)`: a non-empty all-digit line (app.py line 111). -/
def linhaNumerica (s : String) : Bool := !s.data.isEmpty && s.data.all ehDigito

/-- `int(s)` on an all-digit string (app.py line 115). -/
def parseNum (s : String) : Nat :=
  s.data.foldl (fun a c => a * 10 + (c.toNat - 48)) 0

/-- Strips the acute/grave/circumflex/tilde/diaeresis/cedilla marks of the
Latin letters that occur in the program's literals: the character-wise model
of `unicodedata.normalize("NFD", ·)` followed by dropping the `Mn`
combining marks (app.py lines 29–31). -/
def tiraAcento (c : Char) : Char :=
  if c = 'á' || c = 'à' || c = 'â' || c = 'ã' || c = 'ä' then 'a'
  else if c = 'Á' || c = 'À' || c = 'Â' || c = 'Ã' || c = 'Ä' then 'A'
  else if c = 'é' || c = 'è' || c = 'ê' || c = 'ë' then 'e'
  else if c = 'É' || c = 'È' || c = 'Ê' || c = 'Ë' then 'E'
  else if c = 'í' || c = 'ì' || c = 'î' || c = 'ï' then 'i'
  else if c = 'Í' || c = 'Ì' || c = 'Î' || c = 'Ï' then 'I'
  else if c = 'ó' || c = 'ò' || c = 'ô' || c = 'õ' || c = 'ö' then 'o'
  else if c = 'Ó' || c = 'Ò' || c = 'Ô' || c = 'Õ' || c = 'Ö' then 'O'
  else if c = 'ú' || c = 'ù' || c = 'û' || c = 'ü' then 'u'
  else if c = 'Ú' || c = 'Ù' || c = 'Û' || c = 'Ü' then 'U'
  else if c = 'ç' then 'c'
  else if c = 'Ç' then 'C'
  else c

/-- ASCII upper-casing of one character (`str.upper` on the accent-stripped
text, app.py line 32). -/
def maiuscula (c : Char) : Char :=
  if 'a' ≤ c && c ≤ 'z' then Char.ofNat (c.toNat - 32) else c

/-- `_norm` (app.py lines 29–32): strip accents, then upper-case. -/
def normaliza (s : String) : String :=
  String.mk (s.data.map fun c => maiuscula (tiraAcento c))

/-- `agulha in palheiro` on character lists: Python's substring test. -/
def contem : List Char → List Char → Bool
  | palheiro, agulha =>
    if agulha.isPrefixOf palheiro then true
    else
      match palheiro with
      | [] => false
      | _ :: resto => contem resto agulha

/-- The two sections the parser handles (`tipo` in app.py). -/
inductive Tipo
  | maoDeObra
  | equipamento
deriving DecidableEq, Repr

/-- The classification vocabulary per section (app.py lines 126–129).
Membership is tested by exact string equality, as the Python `in`-set
test does. -/
def palavrasClasse : Tipo → List String
  | .maoDeObra => ["Direto", "Indireto", "DIRETO", "INDIRETO"]
  | .equipamento => ["Mecânico", "Elétrico", "MECANICO", "ELETRICO", "MECÂNICO", "ELÉTRICO"]

/-- The `if "DIRETO" in up ... elif ...` chain that canonicalises a matched
classification line (app.py lines 135–143); returns `""` when no branch
fires, matching the initialisation at line 120. -/
def classifica (lk : String) : String :=
  let up := (normaliza lk).data
  if contem up "DIRETO".data then "Direto"
  else if contem up "INDIRETO".data then "Indireto"
  else if contem up "MECANICO".data then "Mecânico"
  else if contem up "ELETRICO".data then "Elétrico"
  else ""

/-- The backward scan `for k in range(i-1, -1, -1)` of app.py line 131,
looking for the first (largest) index `k` whose stripped line is in the
classification vocabulary.  The argument is the index the scan starts at. -/
def desceBuscando (linhas : List String) (palavras : List String) : Nat → Option Nat
  | 0 => if palavras.contains (aparar (linhas.getD 0 "")) then some 0 else none
  | k + 1 =>
    if palavras.contains (aparar (linhas.getD (k + 1) "")) then some (k + 1)
    else desceBuscando linhas palavras k

/-- Backtrack from `i - 1` down to `0` (empty when `i = 0`, as
`range(-1, -1, -1)` is empty). -/
def buscaClasse (tipo : Tipo) (linhas : List String) (i : Nat) : Option Nat :=
  match i with
  | 0 => none
  | i' + 1 => desceBuscando linhas (palavrasClasse tipo) i'

/-- Python slice `linhas[a:b]`. -/
def recorte (linhas : List String) (a b : Nat) : List String :=
  (linhas.drop a).take (b - a)

/-- `" ".join(ls)`. -/
def juntaEspacos : List String → String
  | [] => ""
  | [x] => x
  | x :: resto => x ++ " " ++ juntaEspacos resto

/-- `" ".join(funcao_linhas).strip() if funcao_linhas else ""` (app.py line 157). -/
def montaFuncao (ls : List String) : String :=
  if ls.isEmpty then "" else aparar (juntaEspacos ls)

/-- The textual context recovered for a numeric run starting at line `i`. -/
structure Contexto where
  classificacao : String
  frente : String
  funcao : String
deriving DecidableEq, Repr

/-- The backtracking block of app.py lines 119–157: classification, work
front and role/equipment name for the numeric run starting at index `i`. -/
def contexto (tipo : Tipo) (linhas : List String) (i : Nat) : Contexto :=
  match buscaClasse tipo linhas i with
  | some k =>
    let lk := aparar (linhas.getD k "")
    let frente :=
      if 0 < k then
        let ant := aparar (linhas.getD (k - 1) "")
        if (palavrasClasse tipo).contains ant then "" else ant
      else ""
    let fl := ((recorte linhas (k + 1) i).map aparar).filter (fun x => x ≠ "")
    { classificacao := classifica lk, frente := frente, funcao := montaFuncao fl }
  | none =>
    let fl := ((recorte linhas (i - 3) i).map aparar).filter (fun x => x ≠ "")
    { classificacao := "", frente := "FRENTE DE OBRA ÚNICA", funcao := montaFuncao fl }

/-- `while len(nums) < 7: nums.append(0)` (app.py lines 160–161). -/
def completa7 (nums : List Nat) : List Nat :=
  nums ++ List.replicate (7 - nums.length) 0

/-- One output row (the dict of app.py lines 170–184). -/
structure Registro where
  nomeArquivo : String
  dataRdo : String
  tipo : Tipo
  funcao : String
  frente : String
  classificacao : String
  contratado : Nat
  eom : Nat
  fm : Nat
  eot : Nat
  ft : Nat
  eon : Nat
  fn : Nat
deriving DecidableEq, Repr

/-- The record's seven numeric fields in canonical order: contracted, then
(in-operation, inspected) for morning, afternoon, night. -/
def camposLista (r : Registro) : List Nat :=
  [r.contratado, r.eom, r.fm, r.eot, r.ft, r.eon, r.fn]

/-- The column mapping of app.py lines 163–168 applied to the padded
number list, in the canonical field order of `camposLista`:
positional for Mão de Obra, the fixed permutation for Equipamento. -/
def mapeiaColunas (tipo : Tipo) (ns : List Nat) : List Nat :=
  match tipo with
  | .maoDeObra =>
    [ns.getD 0 0, ns.getD 1 0, ns.getD 2 0, ns.getD 3 0, ns.getD 4 0, ns.getD 5 0, ns.getD 6 0]
  | .equipamento =>
    [ns.getD 0 0, ns.getD 5 0, ns.getD 6 0, ns.getD 3 0, ns.getD 4 0, ns.getD 1 0, ns.getD 2 0]

/-- Builds the record emitted for the numeric run `nums` starting at line
index `i` (app.py lines 119–184). -/
def montaRegistro (na da : String) (tipo : Tipo) (linhas : List String) (i : Nat)
    (nums : List Nat) : Registro :=
  let ctx := contexto tipo linhas i
  let ns := completa7 nums
  match tipo with
  | .maoDeObra =>
    { nomeArquivo := na, dataRdo := da, tipo := .maoDeObra,
      funcao := ctx.funcao, frente := ctx.frente, classificacao := ctx.classificacao,
      contratado := ns.getD 0 0, eom := ns.getD 1 0, fm := ns.getD 2 0,
      eot := ns.getD 3 0, ft := ns.getD 4 0, eon := ns.getD 5 0, fn := ns.getD 6 0 }
  | .equipamento =>
    { nomeArquivo := na, dataRdo := da, tipo := .equipamento,
      funcao := ctx.funcao, frente := ctx.frente, classificacao := ctx.classificacao,
      contratado := ns.getD 0 0, eom := ns.getD 5 0, fm := ns.getD 6 0,
      eot := ns.getD 3 0, ft := ns.getD 4 0, eon := ns.getD 1 0, fn := ns.getD 2 0 }

/-- The scan loop of app.py lines 109–191 with an explicit fuel parameter
(second argument is the cursor `i`).  Each iteration either skips one line,
rejects a short numeric run advancing by one, or consumes an accepted run
and emits a record.  Fuel `linhas.length` always suffices (proved below). -/
def varre (na da : String) (tipo : Tipo) (linhas : List String) : Nat → Nat → List Registro
  | 0, _ => []
  | fuel + 1, i =>
    if i < linhas.length then
      if linhaNumerica (linhas.getD i "") then
        if 6 ≤ ((linhas.drop i).takeWhile linhaNumerica).length then
          montaRegistro na da tipo linhas i
              (((linhas.drop i).takeWhile linhaNumerica).map parseNum) ::
            varre na da tipo linhas fuel (i + ((linhas.drop i).takeWhile linhaNumerica).length)
        else varre na da tipo linhas fuel (i + 1)
      else varre na da tipo linhas fuel (i + 1)
    else []

/-- `_parse_secao` from the cleaned line list onward (app.py lines 108–192):
the full scan starting at cursor 0. -/
def parseSecaoLinhas (na da : String) (tipo : Tipo) (linhas : List String) : List Registro :=
  varre na da tipo linhas linhas.length 0

/-- The scan viewed from an arbitrary cursor, with canonical fuel. -/
def varreDesde (na da : String) (tipo : Tipo) (linhas : List String) (i : Nat) : List Registro :=
  varre na da tipo linhas (linhas.length - i) i

/-- The cursor position after one iteration of the scan loop at cursor `i`:
`i + 1` on a non-numeric line or a rejected (< 6) run, the first index past
the run on an accepted one (app.py lines 186–190). -/
def proximoCursor (linhas : List String) (i : Nat) : Nat :=
  if linhaNumerica (linhas.getD i "") then
    if 6 ≤ ((linhas.drop i).takeWhile linhaNumerica).length then
      i + ((linhas.drop i).takeWhile linhaNumerica).length
    else i + 1
  else i + 1

/-- One inconsistency row (`inconsistencias` entries in app.py). -/
structure Inconsistencia where
  nomeArquivo : String
  linha : String
deriving DecidableEq, Repr

/-- The per-file body of `processar_arquivos` (app.py lines 196–215),
threading the two accumulator lists.  The input of one file is its name
together with the result of the external text extraction: `Except.error e`
models an exception raised while reading or extracting the document, caught
by the `try`/`except` at the per-document boundary.  `parse` abstracts
`_parse_secao texto nome tipo` (whose internals are embedded separately at
the line level). -/
def processaUm (parse : String → String → Tipo → List Registro)
    (acc : List Registro × List Inconsistencia) (f : String × Except String String) :
    List Registro × List Inconsistencia :=
  match f.2 with
  | .error e => (acc.1, acc.2 ++ [{ nomeArquivo := f.1, linha := "[ERRO] " ++ e }])
  | .ok texto =>
    let dadosMo := parse texto f.1 .maoDeObra
    let dadosEq := parse texto f.1 .equipamento
    if dadosMo = [] ∧ dadosEq = [] then
      (acc.1, acc.2 ++ [{ nomeArquivo := f.1, linha := "[BLOCOS NÃO ENCONTRADOS OU SEM PADRÃO]" }])
    else (acc.1 ++ dadosMo ++ dadosEq, acc.2)

/-- `processar_arquivos` (app.py lines 194–215): fold the per-file body over
the batch, starting from empty accumulators. -/
def processarArquivos (parse : String → String → Tipo → List Registro)
    (files : List (String × Except String String)) :
    List Registro × List Inconsistencia :=
  files.foldl (processaUm parse) ([], [])

/-- The records one document contributes to the batch output: none on an
extraction error or when both sections are empty, otherwise the Mão de Obra
records followed by the Equipamento records. -/
def contribRegistros (parse : String → String → Tipo → List Registro)
    (f : String × Except String String) : List Registro :=
  match f.2 with
  | .error _ => []
  | .ok texto =>
    let dadosMo := parse texto f.1 .maoDeObra
    let dadosEq := parse texto f.1 .equipamento
    if dadosMo = [] ∧ dadosEq = [] then [] else dadosMo ++ dadosEq

/-- The inconsistency rows one document contributes: one `[ERRO]` row on an
extraction error, one `[BLOCOS ...]` row when both sections are empty,
none otherwise. -/
def contribInconsistencias (parse : String → String → Tipo → List Registro)
    (f : String × Except String String) : List Inconsistencia :=
  match f.2 with
  | .error e => [{ nomeArquivo := f.1, linha := "[ERRO] " ++ e }]
  | .ok texto =>
    let dadosMo := parse texto f.1 .maoDeObra
    let dadosEq := parse texto f.1 .equipamento
    if dadosMo = [] ∧ dadosEq = [] then
      [{ nomeArquivo := f.1, linha := "[BLOCOS NÃO ENCONTRADOS OU SEM PADRÃO]" }]
    else []

/-! ## Section locator (`_recorta_bloco`, app.py lines 45–91)

The locator is embedded at the level of the normalized text `tnorm`
(`_norm(texto)`), as a list of characters, and returns the pair of
normalized offsets `(s, e)` it computes; the final slice
`texto[int(s*ratio):int(e*ratio)]` projects these through a floating-point
ratio into the original text and is outside this model. -/

/-- `palheiro.find(agulha, start)`: the least index `≥ start` where
`agulha` occurs, as Python's `str.find` computes it. -/
def findFrom (palheiro agulha : List Char) (start : Nat) : Option Nat :=
  (((List.range (palheiro.length + 1)).filter
    (fun idx => decide (start ≤ idx) && agulha.isPrefixOf (palheiro.drop idx)))).head?

/-- `next((tnorm.find(x, start) for x in frases if tnorm.find(x, start) != -1), -1)`
(app.py lines 80 and 84): the find result of the first phrase in list order
that occurs at all. -/
def primeiroAchado (tnorm : List Char) (frases : List (List Char)) (start : Nat) : Option Nat :=
  match frases with
  | [] => none
  | p :: ps =>
    match findFrom tnorm p start with
    | some idx => some idx
    | none => primeiroAchado tnorm ps start

/-- Start-anchor phrase lists (app.py lines 55–59 and 66–70). -/
def ancorasInicio : Tipo → List (List Char)
  | .maoDeObra =>
    ["RECURSOS EM OPERACAO MAO DE OBRA".data,
     "RECURSOS EM OPERACAO - MAO DE OBRA".data,
     "RECURSOS DE OPERACAO MAO DE OBRA".data]
  | .equipamento =>
    ["RECURSOS EM OPERACAO EQUIPAMENTO".data,
     "RECURSOS EM OPERACAO - EQUIPAMENTO".data,
     "RECURSOS DE OPERACAO EQUIPAMENTO".data]

/-- End-anchor phrase lists (app.py lines 60–64 and 71–78). -/
def ancorasFim : Tipo → List (List Char)
  | .maoDeObra =>
    ["RECURSOS EM OPERACAO EQUIPAMENTO".data,
     "RECURSOS EM OPERACAO - EQUIPAMENTO".data,
     "RECURSOS DE OPERACAO EQUIPAMENTO".data]
  | .equipamento =>
    ["ASSINATURAS".data, "ASSINATURA".data, "RESPONSAVEL".data,
     "RESPONSÁVEL".data, "OBSERVACOES".data, "OBSERVAÇÕES".data]

/-- `_recorta_bloco` offset computation (app.py lines 80–87): `none` when no
start anchor matches; otherwise the start offset paired with the end offset,
which falls back to the end of the text when the end search fails
(`if e == -1 or e <= s: e = len(tnorm)`). -/
def recortaBloco (tipo : Tipo) (tnorm : List Char) : Option (Nat × Nat) :=
  match primeiroAchado tnorm (ancorasInicio tipo) 0 with
  | none => none
  | some s =>
    match primeiroAchado tnorm (ancorasFim tipo) (s + 1) with
    | none => some (s, tnorm.length)
    | some e => if e ≤ s then some (s, tnorm.length) else some (s, e)

/-! ## Report date extractor (`extrair_data_rdo`, app.py lines 34–43) -/

/-- Accumulator pass of the model of Python's `str.splitlines` for
newline-separated text. -/
def quebraLinhasAux : List Char → List Char → List (List Char)
  | [], acc => [acc.reverse]
  | c :: resto, acc =>
    if c = '\n' then acc.reverse :: quebraLinhasAux resto []
    else quebraLinhasAux resto (c :: acc)

/-- Python's `str.splitlines` restricted to `'\n'` terminators: splits at
each newline and drops the final empty piece a trailing newline would
produce (`"".splitlines() == []`, `"a\n".splitlines() == ["a"]`). -/
def quebraLinhas (s : List Char) : List (List Char) :=
  match s with
  | [] => []
  | _ =>
    let ps := quebraLinhasAux s []
    if s.getLast? = some '\n' then ps.dropLast else ps

/-- `"\n".join(ls)`. -/
def juntaQuebras : List (List Char) → List Char
  | [] => []
  | [x] => x
  | x :: resto => x ++ '\n' :: juntaQuebras resto

/-- A word character for the `\b` boundary of the date regex: Python's `\w`
over the ASCII range (letters, digits, underscore). -/
def ehCharPalavra (c : Char) : Bool := c.isAlphanum || c = '_'

/-- `\b(\d{2}/\d{2}/\d{4})\b` matches at position `i` of `s` (app.py
line 42): the ten pattern characters, delimited by word boundaries. -/
def dataEm (s : List Char) (i : Nat) : Bool :=
  (i == 0 || !ehCharPalavra (s.getD (i - 1) ' '))
  && ehDigito (s.getD i ' ') && ehDigito (s.getD (i + 1) ' ')
  && (s.getD (i + 2) ' ' == '/')
  && ehDigito (s.getD (i + 3) ' ') && ehDigito (s.getD (i + 4) ' ')
  && (s.getD (i + 5) ' ' == '/')
  && ehDigito (s.getD (i + 6) ' ') && ehDigito (s.getD (i + 7) ' ')
  && ehDigito (s.getD (i + 8) ' ') && ehDigito (s.getD (i + 9) ' ')
  && (decide (s.length ≤ i + 10) || !ehCharPalavra (s.getD (i + 10) ' '))

/-- `re.search(r"\b(\d{2}/\d{2}/\d{4})\b", s)`: the leftmost match and its
captured group (the ten matched characters). -/
def buscaData (s : List Char) : Option (List Char) :=
  (((List.range s.length).filter (fun i => dataEm s i)).head?).map
    (fun i => (s.drop i).take 10)

/-- Modelled from the claim's words, for comparison with `buscaData`: the
first occurrence of two digits, slash, two digits, slash, four digits, with
no word-boundary requirement (C8 omits the regex's two anchors). -/
def dataEmSimples (s : List Char) (i : Nat) : Bool :=
  ehDigito (s.getD i ' ') && ehDigito (s.getD (i + 1) ' ')
  && (s.getD (i + 2) ' ' == '/')
  && ehDigito (s.getD (i + 3) ' ') && ehDigito (s.getD (i + 4) ' ')
  && (s.getD (i + 5) ' ' == '/')
  && ehDigito (s.getD (i + 6) ' ') && ehDigito (s.getD (i + 7) ' ')
  && ehDigito (s.getD (i + 8) ' ') && ehDigito (s.getD (i + 9) ' ')

/-- Leftmost match of the boundary-free pattern of the claim's words. -/
def buscaDataSimples (s : List Char) : Option (List Char) :=
  (((List.range s.length).filter (fun i => dataEmSimples s i)).head?).map
    (fun i => (s.drop i).take 10)

/-- `extrair_data_rdo` (app.py lines 34–43).  When the text has at least 11
lines, line index 10 is returned stripped (or the sentinel if blank).
Otherwise `linhas[10]` raises `IndexError` and the handler searches
`"\n".join(linhas[:30])` for the date pattern — `linhas` is always bound at
that point, so the `texto_completo[:1000]` alternative of line 42 is dead
code and does not appear in the model. -/
def extrairDataRdo (texto : List Char) : List Char :=
  let linhas := quebraLinhas texto
  match linhas.get? 10 with
  | some l =>
    let d := apararLC l
    if d.isEmpty then "Data não encontrada".data else d
  | none =>
    match buscaData (juntaQuebras (linhas.take 30)) with
    | some m => m
    | none => "Data não encontrada".data

/-- A fixed record used to instantiate the abstract section parser in the
concrete batch example of claim C9. -/
def exemploRegistro (na : String) (tp : Tipo) : Registro :=
  { nomeArquivo := na, dataRdo := "", tipo := tp, funcao := "", frente := "",
    classificacao := "", contratado := 0, eom := 0, fm := 0, eot := 0, ft := 0,
    eon := 0, fn := 0 }

/-! ## List helper lemmas -/

theorem takeWhile_todos {α : Type} (p : α → Bool) :
    ∀ l : List α, (∀ x ∈ l, p x = true) → l.takeWhile p = l
  | [], _ => rfl
  | x :: xs, h => by
    have hx : p x = true := h x (by simp)
    simp [List.takeWhile_cons, hx, takeWhile_todos p xs (fun y hy => h y (by simp [hy]))]

theorem takeWhile_comprimento {α : Type} (p : α → Bool) :
    ∀ l : List α, (l.takeWhile p).length ≤ l.length
  | [] => Nat.le_refl _
  | x :: xs => by
    cases hx : p x with
    | false => simp [List.takeWhile_cons, hx]
    | true =>
      simpa [List.takeWhile_cons, hx, Nat.succ_le_succ_iff] using takeWhile_comprimento p xs

theorem mem_do_drop {α : Type} {x : α} : ∀ (n : Nat) (l : List α), x ∈ l.drop n → x ∈ l
  | 0, _, h => h
  | _ + 1, [], h => by simp at h
  | n + 1, a :: l, h => List.mem_cons_of_mem a (mem_do_drop n l h)

theorem getD_do_drop {α : Type} (d : α) :
    ∀ (i t : Nat) (l : List α), (l.drop i).getD t d = l.getD (i + t) d
  | 0, t, l => by simp
  | i + 1, t, [] => by simp
  | i + 1, t, a :: l => by
    rw [Nat.succ_add]
    exact getD_do_drop d i t l

theorem drop_append_tam {α : Type} :
    ∀ (l₁ l₂ : List α) (t : Nat), (l₁ ++ l₂).drop (l₁.length + t) = l₂.drop t
  | [], _, _ => by simp
  | a :: l₁, l₂, t => by
    rw [List.length_cons, List.cons_append, Nat.succ_add, List.drop_succ_cons]
    exact drop_append_tam l₁ l₂ t

theorem getD_append_menor {α : Type} (d : α) :
    ∀ (l₁ l₂ : List α) (i : Nat), i < l₁.length → (l₁ ++ l₂).getD i d = l₁.getD i d
  | [], _, i, h => by simp at h
  | _ :: _, _, 0, _ => rfl
  | a :: l₁, l₂, i + 1, h => by
    simpa using getD_append_menor d l₁ l₂ i (by simpa using h)

theorem getD_append_dir {α : Type} (d : α) :
    ∀ (l₁ l₂ : List α) (t : Nat), (l₁ ++ l₂).getD (l₁.length + t) d = l₂.getD t d
  | [], _, _ => by simp
  | a :: l₁, l₂, t => by simpa [Nat.succ_add] using getD_append_dir d l₁ l₂ t

theorem getD_pertence {α : Type} (d : α) :
    ∀ (l : List α) (i : Nat), i < l.length → l.getD i d ∈ l
  | [], i, h => by simp at h
  | a :: l, 0, _ => by simp
  | a :: l, i + 1, h => by
    simp only [List.getD_cons_succ]
    exact List.mem_cons_of_mem a (getD_pertence d l i (by simpa using h))

theorem depois_takeWhile {α : Type} (p : α → Bool) (d : α) :
    ∀ l : List α, (l.takeWhile p).length < l.length →
      p (l.getD (l.takeWhile p).length d) = false
  | [], h => by simp at h
  | a :: l, h => by
    cases ha : p a with
    | false => simp [List.takeWhile_cons, ha]
    | true =>
      have h' : (l.takeWhile p).length < l.length := by
        simpa [List.takeWhile_cons, ha] using h
      simpa [List.takeWhile_cons, ha] using depois_takeWhile p d l h'

theorem getD_take_menor {α : Type} (d : α) :
    ∀ (l : List α) (n k : Nat), k < n → (l.take n).getD k d = l.getD k d
  | [], _, _, _ => by simp
  | _ :: _, n + 1, 0, _ => rfl
  | a :: l, n + 1, k + 1, h => by
    simpa using getD_take_menor d l n k (by omega)
  | _ :: _, 0, k, h => by omega

theorem mapeia_id7 : ∀ ns : List Nat, ns.length = 7 → mapeiaColunas .maoDeObra ns = ns := by
  intro ns h
  rcases ns with _ | ⟨a, _ | ⟨b, _ | ⟨c, _ | ⟨d, _ | ⟨e, _ | ⟨f, _ | ⟨g, _ | ⟨x, t⟩⟩⟩⟩⟩⟩⟩⟩
  all_goals first | rfl | (simp at h)

theorem campos_monta (na da : String) (tipo : Tipo) (linhas : List String) (i : Nat)
    (nums : List Nat) :
    camposLista (montaRegistro na da tipo linhas i nums) = mapeiaColunas tipo (completa7 nums) := by
  cases tipo <;> rfl

/-! ## Scan-loop lemmas: fuel sufficiency and the cursor's single step -/

theorem varre_fim (na da : String) (tipo : Tipo) (linhas : List String) (fuel i : Nat)
    (h : linhas.length ≤ i) : varre na da tipo linhas fuel i = [] := by
  cases fuel with
  | zero => rfl
  | succ f =>
    simp only [varre]
    rw [if_neg (by omega)]

theorem varre_fuel_eq (na da : String) (tipo : Tipo) (linhas : List String) :
    ∀ f g i : Nat, linhas.length - i ≤ f → linhas.length - i ≤ g →
      varre na da tipo linhas f i = varre na da tipo linhas g i := by
  intro f
  induction f with
  | zero =>
    intro g i h1 _
    rw [varre_fim na da tipo linhas 0 i (by omega), varre_fim na da tipo linhas g i (by omega)]
  | succ f ih =>
    intro g i h1 h2
    by_cases hi : i < linhas.length
    · cases g with
      | zero => omega
      | succ g' =>
        simp only [varre]
        rw [if_pos hi, if_pos hi]
        by_cases hd : linhaNumerica (linhas.getD i "") = true
        · rw [if_pos hd, if_pos hd]
          by_cases hL : 6 ≤ ((linhas.drop i).takeWhile linhaNumerica).length
          · rw [if_pos hL, if_pos hL]
            have := ih g' (i + ((linhas.drop i).takeWhile linhaNumerica).length)
              (by omega) (by omega)
            rw [this]
          · rw [if_neg hL, if_neg hL]
            exact ih g' (i + 1) (by omega) (by omega)
        · rw [if_neg hd, if_neg hd]
          exact ih g' (i + 1) (by omega) (by omega)
    · rw [varre_fim na da tipo linhas (f + 1) i (by omega),
        varre_fim na da tipo linhas g i (by omega)]

theorem parse_desde (na da : String) (tipo : Tipo) (linhas : List String) :
    parseSecaoLinhas na da tipo linhas = varreDesde na da tipo linhas 0 := by
  unfold parseSecaoLinhas varreDesde
  rw [Nat.sub_zero]

theorem desde_fim (na da : String) (tipo : Tipo) (linhas : List String) (i : Nat)
    (h : linhas.length ≤ i) : varreDesde na da tipo linhas i = [] :=
  varre_fim na da tipo linhas _ i h

theorem desde_pula (na da : String) (tipo : Tipo) (linhas : List String) (i : Nat)
    (h : i < linhas.length) (hd : linhaNumerica (linhas.getD i "") = false) :
    varreDesde na da tipo linhas i = varreDesde na da tipo linhas (i + 1) := by
  unfold varreDesde
  rw [show linhas.length - i = (linhas.length - (i + 1)) + 1 from by omega]
  simp only [varre]
  rw [if_pos h, if_neg (by rw [hd]; simp)]

theorem desde_rejeita (na da : String) (tipo : Tipo) (linhas : List String) (i : Nat)
    (h : i < linhas.length) (hd : linhaNumerica (linhas.getD i "") = true)
    (hL : ((linhas.drop i).takeWhile linhaNumerica).length < 6) :
    varreDesde na da tipo linhas i = varreDesde na da tipo linhas (i + 1) := by
  unfold varreDesde
  rw [show linhas.length - i = (linhas.length - (i + 1)) + 1 from by omega]
  simp only [varre]
  rw [if_pos h, if_pos hd, if_neg (by omega)]

theorem desde_aceita (na da : String) (tipo : Tipo) (linhas : List String) (i : Nat)
    (h : i < linhas.length) (hd : linhaNumerica (linhas.getD i "") = true)
    (hL : 6 ≤ ((linhas.drop i).takeWhile linhaNumerica).length) :
    varreDesde na da tipo linhas i =
      montaRegistro na da tipo linhas i (((linhas.drop i).takeWhile linhaNumerica).map parseNum) ::
        varreDesde na da tipo linhas (i + ((linhas.drop i).takeWhile linhaNumerica).length) := by
  unfold varreDesde
  rw [show linhas.length - i = (linhas.length - (i + 1)) + 1 from by omega]
  simp only [varre]
  rw [if_pos h, if_pos hd, if_pos hL]
  congr 1
  exact varre_fuel_eq na da tipo linhas _ _ _ (by omega) (by omega)

theorem desde_pula_prefixo (na da : String) (tipo : Tipo) (pre ds : List String)
    (hpre : ∀ s ∈ pre, linhaNumerica s = false) :
    ∀ j, j ≤ pre.length →
      varreDesde na da tipo (pre ++ ds) j = varreDesde na da tipo (pre ++ ds) pre.length := by
  have key : ∀ n j, pre.length - j = n → j ≤ pre.length →
      varreDesde na da tipo (pre ++ ds) j = varreDesde na da tipo (pre ++ ds) pre.length := by
    intro n
    induction n with
    | zero =>
      intro j h1 h2
      rw [show j = pre.length from by omega]
    | succ n ih =>
      intro j h1 h2
      have hjl : j < pre.length := by omega
      have hlt : j < (pre ++ ds).length := by simp; omega
      have hnd : linhaNumerica ((pre ++ ds).getD j "") = false := by
        rw [getD_append_menor "" pre ds j hjl]
        exact hpre _ (getD_pertence "" pre j hjl)
      rw [desde_pula na da tipo (pre ++ ds) j hlt hnd]
      exact ih (j + 1) (by omega) (by omega)
  intro j hj
  exact key (pre.length - j) j rfl hj

theorem corre_curta (na da : String) (tipo : Tipo) (pre ds : List String)
    (hds : ∀ s ∈ ds, linhaNumerica s = true) (hlen : ds.length < 6) :
    ∀ t, varreDesde na da tipo (pre ++ ds) (pre.length + t) = [] := by
  have key : ∀ n t, ds.length - t = n →
      varreDesde na da tipo (pre ++ ds) (pre.length + t) = [] := by
    intro n
    induction n with
    | zero =>
      intro t h1
      apply desde_fim
      simp
      omega
    | succ n ih =>
      intro t h1
      have htl : t < ds.length := by omega
      have hi : pre.length + t < (pre ++ ds).length := by simp; omega
      have hgd : (pre ++ ds).getD (pre.length + t) "" = ds.getD t "" :=
        getD_append_dir "" pre ds t
      have hd : linhaNumerica ((pre ++ ds).getD (pre.length + t) "") = true := by
        rw [hgd]
        exact hds _ (getD_pertence "" ds t htl)
      have hdrop : (pre ++ ds).drop (pre.length + t) = ds.drop t := drop_append_tam pre ds t
      have htw : ((pre ++ ds).drop (pre.length + t)).takeWhile linhaNumerica = ds.drop t := by
        rw [hdrop]
        exact takeWhile_todos _ _ (fun x hx => hds x (mem_do_drop t ds hx))
      have hL : (((pre ++ ds).drop (pre.length + t)).takeWhile linhaNumerica).length < 6 := by
        rw [htw]
        simp
        omega
      rw [desde_rejeita na da tipo (pre ++ ds) (pre.length + t) hi hd hL]
      rw [show pre.length + t + 1 = pre.length + (t + 1) from by omega]
      exact ih (t + 1) (by omega)
  intro t
  exact key (ds.length - t) t rfl

theorem corre_aceita (na da : String) (tipo : Tipo) (pre ds : List String)
    (hds : ∀ s ∈ ds, linhaNumerica s = true) (h6 : 6 ≤ ds.length) :
    varreDesde na da tipo (pre ++ ds) pre.length =
      [montaRegistro na da tipo (pre ++ ds) pre.length (ds.map parseNum)] := by
  have hne : 0 < ds.length := by omega
  have hi : pre.length < (pre ++ ds).length := by simp; omega
  have hdrop : (pre ++ ds).drop pre.length = ds := by
    have h0 := drop_append_tam pre ds 0
    rw [Nat.add_zero] at h0
    rw [h0]
    exact List.drop_zero ds
  have hgd : (pre ++ ds).getD pre.length "" = ds.getD 0 "" := by
    simpa using getD_append_dir "" pre ds 0
  have hd : linhaNumerica ((pre ++ ds).getD pre.length "") = true := by
    rw [hgd]
    exact hds _ (getD_pertence "" ds 0 hne)
  have htw : ((pre ++ ds).drop pre.length).takeWhile linhaNumerica = ds := by
    rw [hdrop]
    exact takeWhile_todos _ _ hds
  have hL : 6 ≤ (((pre ++ ds).drop pre.length).takeWhile linhaNumerica).length := by
    rw [htw]
    exact h6
  rw [desde_aceita na da tipo (pre ++ ds) pre.length hi hd hL, htw]
  rw [desde_fim na da tipo (pre ++ ds) (pre.length + ds.length) (by simp)]

theorem mapeia_take7 (tipo : Tipo) (ns : List Nat) :
    mapeiaColunas tipo (ns.take 7) = mapeiaColunas tipo ns := by
  cases tipo <;>
    simp only [mapeiaColunas] <;>
    rw [getD_take_menor 0 ns 7 0 (by omega), getD_take_menor 0 ns 7 1 (by omega),
      getD_take_menor 0 ns 7 2 (by omega), getD_take_menor 0 ns 7 3 (by omega),
      getD_take_menor 0 ns 7 4 (by omega), getD_take_menor 0 ns 7 5 (by omega),
      getD_take_menor 0 ns 7 6 (by omega)]

theorem prox_cresce (linhas : List String) (i : Nat) : i < proximoCursor linhas i := by
  unfold proximoCursor
  split_ifs with h1 h2 <;> omega

theorem alcanca_fim (linhas : List String) :
    ∀ m i, linhas.length - i ≤ m →
      ∃ n, n ≤ linhas.length - i ∧ linhas.length ≤ (proximoCursor linhas)^[n] i := by
  intro m
  induction m with
  | zero =>
    intro i h
    exact ⟨0, by omega, by simpa using (by omega : linhas.length ≤ i)⟩
  | succ m ih =>
    intro i h
    by_cases hi : i < linhas.length
    · have hstep : i < proximoCursor linhas i := prox_cresce linhas i
      obtain ⟨n, hn1, hn2⟩ := ih (proximoCursor linhas i) (by omega)
      refine ⟨n + 1, by omega, ?_⟩
      rw [Function.iterate_succ_apply]
      exact hn2
    · exact ⟨0, by omega, by simpa using (by omega : linhas.length ≤ i)⟩

/-! ## Claims about the record reconstructor -/

/-- C1: every numeric run accepted in the Equipment section (at least 6
digit-only lines, zero-padded to `nums[0..6]`) is mapped with
`contracted = nums[0]`, `op_morning = nums[5]`, `insp_morning = nums[6]`,
`op_afternoon = nums[3]`, `insp_afternoon = nums[4]`, `op_night = nums[1]`,
`insp_night = nums[2]`; a Labor run is mapped positionally; and the run
`[10,1,2,3,4,5,6]` under Equipment yields `contracted=10, op_morning=5,
insp_morning=6, op_afternoon=3, insp_afternoon=4, op_night=1, insp_night=2`. -/
theorem c1_mapeamento_colunas :
    (∀ (na da : String) (pre ds : List String),
      (∀ s ∈ pre, linhaNumerica s = false) → (∀ s ∈ ds, linhaNumerica s = true) →
      6 ≤ ds.length →
      (parseSecaoLinhas na da Tipo.equipamento (pre ++ ds)).map camposLista =
        [[(completa7 (ds.map parseNum)).getD 0 0, (completa7 (ds.map parseNum)).getD 5 0,
          (completa7 (ds.map parseNum)).getD 6 0, (completa7 (ds.map parseNum)).getD 3 0,
          (completa7 (ds.map parseNum)).getD 4 0, (completa7 (ds.map parseNum)).getD 1 0,
          (completa7 (ds.map parseNum)).getD 2 0]])
    ∧ (∀ (na da : String) (pre ds : List String),
      (∀ s ∈ pre, linhaNumerica s = false) → (∀ s ∈ ds, linhaNumerica s = true) →
      6 ≤ ds.length →
      (parseSecaoLinhas na da Tipo.maoDeObra (pre ++ ds)).map camposLista =
        [[(completa7 (ds.map parseNum)).getD 0 0, (completa7 (ds.map parseNum)).getD 1 0,
          (completa7 (ds.map parseNum)).getD 2 0, (completa7 (ds.map parseNum)).getD 3 0,
          (completa7 (ds.map parseNum)).getD 4 0, (completa7 (ds.map parseNum)).getD 5 0,
          (completa7 (ds.map parseNum)).getD 6 0]])
    ∧ parseSecaoLinhas "rdo.pdf" "01/01/2024" Tipo.equipamento
        ["10", "1", "2", "3", "4", "5", "6"] =
      [{ nomeArquivo := "rdo.pdf", dataRdo := "01/01/2024", tipo := .equipamento,
         funcao := "", frente := "FRENTE DE OBRA ÚNICA", classificacao := "",
         contratado := 10, eom := 5, fm := 6, eot := 3, ft := 4, eon := 1, fn := 2 }] := by
  refine ⟨?_, ?_, by decide⟩ <;>
  · intro na da pre ds hpre hds h6
    rw [parse_desde, desde_pula_prefixo na da _ pre ds hpre 0 (by omega),
      corre_aceita na da _ pre ds hds h6]
    simp only [List.map_cons, List.map_nil, campos_monta]
    rfl

/-- Witness for C1 at a concrete accepted Equipment run with a non-numeric
prefix line. -/
theorem c1_mapeamento_colunas_witness :
    (parseSecaoLinhas "a" "d" Tipo.equipamento
        (["Escavadeira"] ++ ["10", "1", "2", "3", "4", "5", "6"])).map camposLista =
      [[10, 5, 6, 3, 4, 1, 2]] := by
  have h := c1_mapeamento_colunas.1 "a" "d" ["Escavadeira"] ["10", "1", "2", "3", "4", "5", "6"]
    (by decide) (by decide) (by decide)
  rw [h]
  decide

/-- C3: a maximal digit-only run of exactly 5 lines produces no record; a
run of exactly 6 produces one record whose padded number list is the 6
parsed integers followed by exactly one 0 (and, for Labor, whose 7 numeric
fields are literally those values in order); a run of 8 or more uses only
the first 7 integers; every record carries exactly 7 numeric fields. -/
theorem c3_limites_corrida :
    (∀ (na da : String) (tipo : Tipo) (pre ds : List String),
      (∀ s ∈ pre, linhaNumerica s = false) → (∀ s ∈ ds, linhaNumerica s = true) →
      ds.length = 5 → parseSecaoLinhas na da tipo (pre ++ ds) = [])
    ∧ (∀ (na da : String) (tipo : Tipo) (pre ds : List String),
      (∀ s ∈ pre, linhaNumerica s = false) → (∀ s ∈ ds, linhaNumerica s = true) →
      ds.length = 6 →
      (parseSecaoLinhas na da tipo (pre ++ ds)).map camposLista =
        [mapeiaColunas tipo (ds.map parseNum ++ [0])])
    ∧ (∀ (na da : String) (pre ds : List String),
      (∀ s ∈ pre, linhaNumerica s = false) → (∀ s ∈ ds, linhaNumerica s = true) →
      ds.length = 6 →
      (parseSecaoLinhas na da Tipo.maoDeObra (pre ++ ds)).map camposLista =
        [ds.map parseNum ++ [0]])
    ∧ (∀ (na da : String) (tipo : Tipo) (pre ds : List String),
      (∀ s ∈ pre, linhaNumerica s = false) → (∀ s ∈ ds, linhaNumerica s = true) →
      8 ≤ ds.length →
      (parseSecaoLinhas na da tipo (pre ++ ds)).map camposLista =
        [mapeiaColunas tipo ((ds.map parseNum).take 7)])
    ∧ (∀ r : Registro, (camposLista r).length = 7) := by
  have corpo : ∀ (na da : String) (tipo : Tipo) (pre ds : List String),
      (∀ s ∈ pre, linhaNumerica s = false) → (∀ s ∈ ds, linhaNumerica s = true) →
      6 ≤ ds.length →
      (parseSecaoLinhas na da tipo (pre ++ ds)).map camposLista =
        [mapeiaColunas tipo (completa7 (ds.map parseNum))] := by
    intro na da tipo pre ds hpre hds h6
    rw [parse_desde, desde_pula_prefixo na da _ pre ds hpre 0 (by omega),
      corre_aceita na da _ pre ds hds h6]
    simp only [List.map_cons, List.map_nil, campos_monta]
  have seis : ∀ (na da : String) (tipo : Tipo) (pre ds : List String),
      (∀ s ∈ pre, linhaNumerica s = false) → (∀ s ∈ ds, linhaNumerica s = true) →
      ds.length = 6 →
      (parseSecaoLinhas na da tipo (pre ++ ds)).map camposLista =
        [mapeiaColunas tipo (ds.map parseNum ++ [0])] := by
    intro na da tipo pre ds hpre hds hlen
    rw [corpo na da tipo pre ds hpre hds (by omega)]
    have : completa7 (ds.map parseNum) = ds.map parseNum ++ [0] := by
      unfold completa7
      rw [List.length_map, hlen]
      simp
    rw [this]
  refine ⟨?_, seis, ?_, ?_, fun r => rfl⟩
  · intro na da tipo pre ds hpre hds hlen
    rw [parse_desde, desde_pula_prefixo na da _ pre ds hpre 0 (by omega)]
    have := corre_curta na da tipo pre ds hds (by omega) 0
    simpa using this
  · intro na da pre ds hpre hds hlen
    rw [seis na da Tipo.maoDeObra pre ds hpre hds hlen]
    rw [mapeia_id7 (ds.map parseNum ++ [0]) (by simp [hlen])]
  · intro na da tipo pre ds hpre hds hlen
    rw [corpo na da tipo pre ds hpre hds (by omega)]
    have : completa7 (ds.map parseNum) = ds.map parseNum := by
      unfold completa7
      rw [List.length_map]
      rw [show 7 - ds.length = 0 from by omega]
      simp
    rw [this, mapeia_take7]

/-- Witness for C3: a 5-line run yields nothing, a 6-line Labor run yields
the six integers plus one zero, an 8-line run keeps only its first seven. -/
theorem c3_limites_corrida_witness :
    parseSecaoLinhas "a" "d" Tipo.maoDeObra
        (["obra"] ++ ["1", "2", "3", "4", "5"]) = []
    ∧ (parseSecaoLinhas "a" "d" Tipo.maoDeObra
        (["obra"] ++ ["1", "2", "3", "4", "5", "6"])).map camposLista =
      [[1, 2, 3, 4, 5, 6, 0]]
    ∧ (parseSecaoLinhas "a" "d" Tipo.maoDeObra
        (["obra"] ++ ["1", "2", "3", "4", "5", "6", "7", "8"])).map camposLista =
      [[1, 2, 3, 4, 5, 6, 7]] := by
  refine ⟨c3_limites_corrida.1 "a" "d" Tipo.maoDeObra ["obra"] ["1", "2", "3", "4", "5"]
    (by decide) (by decide) (by decide), ?_, ?_⟩
  · have h := c3_limites_corrida.2.2.1 "a" "d" ["obra"] ["1", "2", "3", "4", "5", "6"]
      (by decide) (by decide) (by decide)
    rw [h]
    decide
  · have h := c3_limites_corrida.2.2.2.1 "a" "d" Tipo.maoDeObra ["obra"]
      ["1", "2", "3", "4", "5", "6", "7", "8"] (by decide) (by decide) (by decide)
    rw [h]
    decide

/-- C4: at a digit-only line starting a run shorter than 6, the scan
advances the cursor by exactly 1 (re-examining the rest of the rejected
run); at a run of 6 or more it emits the record and jumps to the first
index past the run, which is the end of the lines or a non-numeric line. -/
theorem c4_avanco_cursor :
    ∀ (na da : String) (tipo : Tipo) (linhas : List String) (i : Nat),
      i < linhas.length → linhaNumerica (linhas.getD i "") = true →
      ((((linhas.drop i).takeWhile linhaNumerica).length < 6 →
          varreDesde na da tipo linhas i = varreDesde na da tipo linhas (i + 1) ∧
          proximoCursor linhas i = i + 1)
       ∧ (6 ≤ ((linhas.drop i).takeWhile linhaNumerica).length →
          varreDesde na da tipo linhas i =
            montaRegistro na da tipo linhas i
                (((linhas.drop i).takeWhile linhaNumerica).map parseNum) ::
              varreDesde na da tipo linhas
                (i + ((linhas.drop i).takeWhile linhaNumerica).length) ∧
          proximoCursor linhas i = i + ((linhas.drop i).takeWhile linhaNumerica).length ∧
          (linhas.length ≤ i + ((linhas.drop i).takeWhile linhaNumerica).length ∨
            linhaNumerica
              (linhas.getD (i + ((linhas.drop i).takeWhile linhaNumerica).length) "") =
              false))) := by
  intro na da tipo linhas i hi hd
  constructor
  · intro hL
    refine ⟨desde_rejeita na da tipo linhas i hi hd hL, ?_⟩
    unfold proximoCursor
    rw [if_pos hd, if_neg (by omega)]
  · intro hL
    refine ⟨desde_aceita na da tipo linhas i hi hd hL, ?_, ?_⟩
    · unfold proximoCursor
      rw [if_pos hd, if_pos hL]
    · by_cases hfim : linhas.length ≤ i + ((linhas.drop i).takeWhile linhaNumerica).length
      · exact Or.inl hfim
      · right
        have hlen : ((linhas.drop i).takeWhile linhaNumerica).length <
            (linhas.drop i).length := by
          simp only [List.length_drop]
          omega
        have := depois_takeWhile linhaNumerica "" (linhas.drop i) hlen
        rwa [getD_do_drop] at this

/-- Witness for C4: a rejected 2-line run advances by 1; an accepted 7-line
run jumps past the run onto a non-numeric line. -/
theorem c4_avanco_cursor_witness :
    (varreDesde "a" "d" Tipo.maoDeObra ["1", "2", "x"] 0 =
        varreDesde "a" "d" Tipo.maoDeObra ["1", "2", "x"] 1 ∧
      proximoCursor ["1", "2", "x"] 0 = 1)
    ∧ (proximoCursor ["1", "2", "3", "4", "5", "6", "7", "fim"] 0 = 7 ∧
      linhaNumerica ((["1", "2", "3", "4", "5", "6", "7", "fim"] : List String).getD 7 "") =
        false) := by
  constructor
  · have h := (c4_avanco_cursor "a" "d" Tipo.maoDeObra ["1", "2", "x"] 0
      (by decide) (by decide)).1 (by decide)
    exact ⟨h.1, h.2⟩
  · have h := (c4_avanco_cursor "a" "d" Tipo.maoDeObra
      ["1", "2", "3", "4", "5", "6", "7", "fim"] 0 (by decide) (by decide)).2 (by decide)
    refine ⟨h.2.1, ?_⟩
    rcases h.2.2 with hf | hf
    · exact absurd hf (by decide)
    · exact hf

/-- C10: the scan terminates on every finite line sequence — each loop
iteration strictly increases the cursor, by exactly 1 on a non-numeric line
or rejected run and to the first index past the run (an advance of at least
6) on an accepted run, so the cursor reaches the end within `length` steps;
consequently fuel `length` is enough and extra fuel never changes the scan. -/
theorem c10_terminacao :
    ∀ (na da : String) (tipo : Tipo) (linhas : List String) (i : Nat),
      i < linhas.length →
      (i < proximoCursor linhas i
       ∧ (linhaNumerica (linhas.getD i "") = false → proximoCursor linhas i = i + 1)
       ∧ (linhaNumerica (linhas.getD i "") = true →
            (((linhas.drop i).takeWhile linhaNumerica).length < 6 →
              proximoCursor linhas i = i + 1)
          ∧ (6 ≤ ((linhas.drop i).takeWhile linhaNumerica).length →
              proximoCursor linhas i = i + ((linhas.drop i).takeWhile linhaNumerica).length
              ∧ i + 6 ≤ proximoCursor linhas i))
       ∧ (∃ n, n ≤ linhas.length - i ∧ linhas.length ≤ (proximoCursor linhas)^[n] i)
       ∧ (∀ fuel, linhas.length ≤ fuel →
            varre na da tipo linhas fuel 0 = parseSecaoLinhas na da tipo linhas)) := by
  intro na da tipo linhas i hi
  refine ⟨prox_cresce linhas i, ?_, ?_, alcanca_fim linhas linhas.length i (by omega), ?_⟩
  · intro hd
    unfold proximoCursor
    rw [if_neg (by rw [hd]; simp)]
  · intro hd
    constructor
    · intro hL
      unfold proximoCursor
      rw [if_pos hd, if_neg (by omega)]
    · intro hL
      have heq : proximoCursor linhas i =
          i + ((linhas.drop i).takeWhile linhaNumerica).length := by
        unfold proximoCursor
        rw [if_pos hd, if_pos hL]
      exact ⟨heq, by omega⟩
  · intro fuel hfuel
    unfold parseSecaoLinhas
    exact varre_fuel_eq na da tipo linhas fuel linhas.length 0 (by omega) (by omega)

/-- Witness for C10 on a concrete 8-line sequence with one accepted run. -/
theorem c10_terminacao_witness :
    0 < proximoCursor ["x", "1", "2", "3", "4", "5", "6", "7"] 0
    ∧ proximoCursor ["x", "1", "2", "3", "4", "5", "6", "7"] 0 = 1
    ∧ (∃ n, n ≤ 8 ∧ 8 ≤ (proximoCursor ["x", "1", "2", "3", "4", "5", "6", "7"])^[n] 0)
    ∧ varre "a" "d" Tipo.maoDeObra ["x", "1", "2", "3", "4", "5", "6", "7"] 100 0 =
        parseSecaoLinhas "a" "d" Tipo.maoDeObra ["x", "1", "2", "3", "4", "5", "6", "7"] := by
  have h := c10_terminacao "a" "d" Tipo.maoDeObra ["x", "1", "2", "3", "4", "5", "6", "7"] 0
    (by decide)
  refine ⟨h.1, h.2.1 (by decide), ?_, h.2.2.2.2 100 (by decide)⟩
  have hx := h.2.2.2.1
  simpa using hx

/-- C5: the Labor lines `["Obra Norte", "Direto", "Pedreiro", "12", "8",
"4", "9", "3", "7", "2"]` yield exactly one record with front
`"Obra Norte"` (the line before the classification word), classification
`"Direto"`, name `"Pedreiro"` and positionally mapped numbers; in general,
with the classification word found at `k`, the front is `lines[k-1]` when
it exists and is not itself a classification word (otherwise empty) and the
name is the space-joined non-empty lines strictly between `k` and the run
start. -/
theorem c5_cenario_encontrado :
    parseSecaoLinhas "rdo1.pdf" "05/01/2024" Tipo.maoDeObra
        ["Obra Norte", "Direto", "Pedreiro", "12", "8", "4", "9", "3", "7", "2"] =
      [{ nomeArquivo := "rdo1.pdf", dataRdo := "05/01/2024", tipo := .maoDeObra,
         funcao := "Pedreiro", frente := "Obra Norte", classificacao := "Direto",
         contratado := 12, eom := 8, fm := 4, eot := 9, ft := 3, eon := 7, fn := 2 }]
    ∧ (∀ (tipo : Tipo) (linhas : List String) (i k : Nat),
      buscaClasse tipo linhas i = some k →
      ((contexto tipo linhas i).frente =
        if 0 < k ∧ (palavrasClasse tipo).contains (aparar (linhas.getD (k - 1) "")) = false
        then aparar (linhas.getD (k - 1) "") else "")
      ∧ (contexto tipo linhas i).funcao =
          montaFuncao ((((linhas.drop (k + 1)).take (i - (k + 1))).map aparar).filter
            (fun x => x ≠ ""))) := by
  refine ⟨by decide, ?_⟩
  intro tipo linhas i k hk
  unfold contexto
  rw [hk]
  dsimp only
  refine ⟨?_, rfl⟩
  by_cases h1 : 0 < k
  · by_cases hc : (palavrasClasse tipo).contains (aparar (linhas.getD (k - 1) "")) = true
    · rw [if_pos h1, if_pos hc, if_neg]
      rintro ⟨-, h2⟩
      rw [h2] at hc
      exact Bool.noConfusion hc
    · have hcf : (palavrasClasse tipo).contains (aparar (linhas.getD (k - 1) "")) = false := by
        cases hb : (palavrasClasse tipo).contains (aparar (linhas.getD (k - 1) "")) with
        | true => exact absurd hb hc
        | false => rfl
      rw [if_pos h1, if_neg hc, if_pos ⟨h1, hcf⟩]
  · rw [if_neg h1, if_neg]
    rintro ⟨h2, -⟩
    exact h1 h2

/-- Witness for C5's general clause at a found classification index. -/
theorem c5_cenario_encontrado_witness :
    (contexto Tipo.maoDeObra ["Obra Sul", "Indireto", "Servente", "1"] 3).frente = "Obra Sul"
    ∧ (contexto Tipo.maoDeObra ["Obra Sul", "Indireto", "Servente", "1"] 3).funcao =
        "Servente" := by
  have h := c5_cenario_encontrado.2 Tipo.maoDeObra ["Obra Sul", "Indireto", "Servente", "1"] 3 1
    (by decide)
  refine ⟨?_, ?_⟩
  · rw [h.1]
    decide
  · rw [h.2]
    decide

/-- C6: when the backward scan finds no classification-vocabulary line, the
record gets front `"FRENTE DE OBRA ÚNICA"`, empty classification, and a
name joined from the up-to-3 non-empty trimmed lines preceding the run;
the lines `["ALPHA", "Carpinteiro", "10", "1", "2", "3", "4", "5", "6"]`
yield exactly one such record. -/
theorem c6_frente_unica :
    parseSecaoLinhas "rdo2.pdf" "06/01/2024" Tipo.maoDeObra
        ["ALPHA", "Carpinteiro", "10", "1", "2", "3", "4", "5", "6"] =
      [{ nomeArquivo := "rdo2.pdf", dataRdo := "06/01/2024", tipo := .maoDeObra,
         funcao := "ALPHA Carpinteiro", frente := "FRENTE DE OBRA ÚNICA",
         classificacao := "",
         contratado := 10, eom := 1, fm := 2, eot := 3, ft := 4, eon := 5, fn := 6 }]
    ∧ (∀ (tipo : Tipo) (linhas : List String) (i : Nat),
      buscaClasse tipo linhas i = none →
      (contexto tipo linhas i).frente = "FRENTE DE OBRA ÚNICA"
      ∧ (contexto tipo linhas i).classificacao = ""
      ∧ (contexto tipo linhas i).funcao =
          montaFuncao ((((linhas.drop (i - 3)).take (i - (i - 3))).map aparar).filter
            (fun x => x ≠ ""))) := by
  refine ⟨by decide, ?_⟩
  intro tipo linhas i hk
  unfold contexto
  rw [hk]
  exact ⟨rfl, rfl, rfl⟩

/-- Witness for C6's general clause when no classification word precedes
the run. -/
theorem c6_frente_unica_witness :
    (contexto Tipo.equipamento ["ALPHA", "Carpinteiro", "1"] 2).frente =
      "FRENTE DE OBRA ÚNICA"
    ∧ (contexto Tipo.equipamento ["ALPHA", "Carpinteiro", "1"] 2).classificacao = ""
    ∧ (contexto Tipo.equipamento ["ALPHA", "Carpinteiro", "1"] 2).funcao =
      "ALPHA Carpinteiro" := by
  have h := c6_frente_unica.2 Tipo.equipamento ["ALPHA", "Carpinteiro", "1"] 2 (by decide)
  refine ⟨h.1, h.2.1, ?_⟩
  rw [h.2.2]
  decide

theorem desce_acha (linhas palavras : List String) :
    ∀ m k, desceBuscando linhas palavras m = some k →
      palavras.contains (aparar (linhas.getD k "")) = true := by
  intro m
  induction m with
  | zero =>
    intro k h
    unfold desceBuscando at h
    by_cases hc : palavras.contains (aparar (linhas.getD 0 "")) = true
    · rw [if_pos hc] at h
      cases h
      exact hc
    · rw [if_neg hc] at h
      cases h
  | succ m ih =>
    intro k h
    unfold desceBuscando at h
    by_cases hc : palavras.contains (aparar (linhas.getD (m + 1) "")) = true
    · rw [if_pos hc] at h
      cases h
      exact hc
    · rw [if_neg hc] at h
      exact ih k h

/-- C2 counterexample: the claim's case- and diacritic-insensitive match
fails on the code.  The line `"direto"` normalizes to `"DIRETO"` but is not
recognized (its run falls back to `FRENTE DE OBRA ÚNICA` with empty
classification), and the recognized line `"Indireto"` is labeled
`"Direto"`, not the corresponding canonical label `"Indireto"`. -/
theorem c2_contraexemplo :
    normaliza "direto" = "DIRETO"
    ∧ parseSecaoLinhas "f" "d" Tipo.maoDeObra
        ["direto", "Pedreiro", "1", "2", "3", "4", "5", "6"] =
      [{ nomeArquivo := "f", dataRdo := "d", tipo := .maoDeObra,
         funcao := "direto Pedreiro", frente := "FRENTE DE OBRA ÚNICA",
         classificacao := "",
         contratado := 1, eom := 2, fm := 3, eot := 4, ft := 5, eon := 6, fn := 0 }]
    ∧ (parseSecaoLinhas "f" "d" Tipo.maoDeObra
        ["Obra", "Indireto", "Pedreiro", "1", "2", "3", "4", "5", "6"]).map
          Registro.classificacao = ["Direto"] := by
  refine ⟨by decide, by decide, by decide⟩

/-- C2 amended: the backward search recognizes a line only by exact string
equality against the literal spellings `{Direto, Indireto, DIRETO,
INDIRETO}` (Labor) or `{Mecânico, Elétrico, MECANICO, ELETRICO, MECÂNICO,
ELÉTRICO}` (Equipment) — spellings such as `"direto"` or `"Mecanico"` are
not in those sets — and the canonical label of a recognized line comes from
substring tests on its normalized form tried in the order DIRETO, INDIRETO,
MECANICO, ELETRICO, so every recognized Labor line (including
Indireto/INDIRETO, whose normalization contains DIRETO) is labeled
`"Direto"`, while Equipment lines map to `"Mecânico"`/`"Elétrico"`. -/
theorem c2_emendado_correspondencia_exata :
    (∀ s, s ∈ palavrasClasse Tipo.maoDeObra → classifica s = "Direto")
    ∧ classifica "Mecânico" = "Mecânico" ∧ classifica "MECANICO" = "Mecânico"
    ∧ classifica "MECÂNICO" = "Mecânico"
    ∧ classifica "Elétrico" = "Elétrico" ∧ classifica "ELETRICO" = "Elétrico"
    ∧ classifica "ELÉTRICO" = "Elétrico"
    ∧ ("direto" ∉ palavrasClasse Tipo.maoDeObra)
    ∧ ("Mecanico" ∉ palavrasClasse Tipo.equipamento)
    ∧ (∀ (tipo : Tipo) (linhas : List String) (i k : Nat),
        buscaClasse tipo linhas i = some k →
        (palavrasClasse tipo).contains (aparar (linhas.getD k "")) = true) := by
  refine ⟨?_, by decide, by decide, by decide, by decide, by decide, by decide,
    by decide, by decide, ?_⟩
  · intro s hs
    simp only [palavrasClasse, List.mem_cons, List.not_mem_nil, or_false] at hs
    rcases hs with rfl | rfl | rfl | rfl <;> decide
  · intro tipo linhas i k hk
    cases i with
    | zero => cases hk
    | succ i' => exact desce_acha linhas (palavrasClasse tipo) i' k hk

/-- Witness for C2's amended claim: `"Indireto"` is in the Labor vocabulary
and is labeled `"Direto"`, and a concrete backtrack lands on a line whose
trimmed text is in the vocabulary. -/
theorem c2_emendado_correspondencia_exata_witness :
    classifica "Indireto" = "Direto"
    ∧ (palavrasClasse Tipo.maoDeObra).contains
        (aparar ((["Obra", "Direto", "Pedreiro"] : List String).getD 1 "")) = true := by
  refine ⟨c2_emendado_correspondencia_exata.1 "Indireto" (by decide), ?_⟩
  exact c2_emendado_correspondencia_exata.2.2.2.2.2.2.2.2.2 Tipo.maoDeObra
    ["Obra", "Direto", "Pedreiro"] 3 1 (by decide)

/-! ## Claims about the section locator -/

theorem cabeca_pertence {α : Type} {l : List α} {a : α} (h : l.head? = some a) : a ∈ l := by
  cases l with
  | nil => cases h
  | cons x xs =>
    simp only [List.head?_cons, Option.some.injEq] at h
    rw [← h]
    simp

theorem findFrom_alguns (palheiro agulha : List Char) (start e : Nat)
    (h : findFrom palheiro agulha start = some e) :
    start ≤ e ∧ agulha.isPrefixOf (palheiro.drop e) = true := by
  unfold findFrom at h
  have he := cabeca_pertence h
  have := List.mem_filter.mp he
  have hp := this.2
  simp only [Bool.and_eq_true, decide_eq_true_eq] at hp
  exact hp

theorem primeiro_alguns (tnorm : List Char) (start e : Nat) :
    ∀ frases, primeiroAchado tnorm frases start = some e →
      ∃ p ∈ frases, findFrom tnorm p start = some e := by
  intro frases
  induction frases with
  | nil => intro h; cases h
  | cons p ps ih =>
    intro h
    unfold primeiroAchado at h
    cases hf : findFrom tnorm p start with
    | some idx =>
      rw [hf] at h
      cases h
      exact ⟨p, by simp, hf⟩
    | none =>
      rw [hf] at h
      obtain ⟨q, hq1, hq2⟩ := ih h
      exact ⟨q, by simp [hq1], hq2⟩

theorem achado_limites (tnorm : List Char) (start e : Nat) (frases : List (List Char))
    (h : primeiroAchado tnorm frases start = some e)
    (hne : ∀ p ∈ frases, p ≠ []) : start ≤ e ∧ e < tnorm.length := by
  obtain ⟨p, hp, hf⟩ := primeiro_alguns tnorm start e frases h
  obtain ⟨h1, h2⟩ := findFrom_alguns tnorm p start e hf
  refine ⟨h1, ?_⟩
  by_contra hcon
  have hnil : tnorm.drop e = [] := List.drop_eq_nil_of_le (by omega)
  rw [hnil] at h2
  cases hq : p with
  | nil => exact hne p hp hq
  | cons c cs =>
    rw [hq] at h2
    cases h2

/-- C7: for both sections, when the end-anchor search (which starts at
`s + 1`) finds an occurrence it lies strictly after the start anchor and
strictly before the end of the text, so the locator returns the span
`(s, e)` — hence the span ends at end-of-text only when no end-anchor
occurs after the start, the Labor "end found at or before start" situation
never arises (making the claim's return-nothing clause hold vacuously), and
for either section absence of an end-anchor falls back to a span ending at
end-of-text, while `none` is returned exactly when no start anchor
matches. -/
theorem c7_localizador_recuo :
    ∀ tnorm : List Char,
      (∀ s e, primeiroAchado tnorm (ancorasInicio Tipo.maoDeObra) 0 = some s →
        primeiroAchado tnorm (ancorasFim Tipo.maoDeObra) (s + 1) = some e →
        s < e ∧ e < tnorm.length ∧ recortaBloco Tipo.maoDeObra tnorm = some (s, e))
      ∧ (∀ s e, primeiroAchado tnorm (ancorasInicio Tipo.equipamento) 0 = some s →
        primeiroAchado tnorm (ancorasFim Tipo.equipamento) (s + 1) = some e →
        s < e ∧ e < tnorm.length ∧ recortaBloco Tipo.equipamento tnorm = some (s, e))
      ∧ (∀ tipo s, primeiroAchado tnorm (ancorasInicio tipo) 0 = some s →
        primeiroAchado tnorm (ancorasFim tipo) (s + 1) = none →
        recortaBloco tipo tnorm = some (s, tnorm.length))
      ∧ (∀ tipo, recortaBloco tipo tnorm = none ↔
          primeiroAchado tnorm (ancorasInicio tipo) 0 = none) := by
  intro tnorm
  have corpo : ∀ (tipo : Tipo) (s e : Nat),
      primeiroAchado tnorm (ancorasInicio tipo) 0 = some s →
      primeiroAchado tnorm (ancorasFim tipo) (s + 1) = some e →
      s < e ∧ e < tnorm.length ∧ recortaBloco tipo tnorm = some (s, e) := by
    intro tipo s e hs he
    have hne : ∀ p ∈ ancorasFim tipo, p ≠ [] := by
      cases tipo <;> (intro p hp; fin_cases hp <;> simp)
    obtain ⟨h1, h2⟩ := achado_limites tnorm (s + 1) e (ancorasFim tipo) he hne
    refine ⟨by omega, h2, ?_⟩
    unfold recortaBloco
    rw [hs]
    dsimp only
    rw [he]
    dsimp only
    rw [if_neg (by omega)]
  refine ⟨corpo Tipo.maoDeObra, corpo Tipo.equipamento, ?_, ?_⟩
  · intro tipo s hs he
    unfold recortaBloco
    rw [hs]
    dsimp only
    rw [he]
  · intro tipo
    cases hs : primeiroAchado tnorm (ancorasInicio tipo) 0 with
    | none =>
      unfold recortaBloco
      rw [hs]
      simp
    | some s =>
      unfold recortaBloco
      rw [hs]
      dsimp only
      constructor
      · intro h
        cases he : primeiroAchado tnorm (ancorasFim tipo) (s + 1) with
        | none =>
          rw [he] at h
          cases h
        | some e =>
          rw [he] at h
          dsimp only at h
          by_cases hle : e ≤ s
          · rw [if_pos hle] at h
            cases h
          · rw [if_neg hle] at h
            cases h
      · intro h
        cases h

/-- Witness for C7 on concrete anchor-bearing texts: a Labor section with a
found end anchor, a Labor section without one, and an Equipment section
without one. -/
theorem c7_localizador_recuo_witness :
    recortaBloco Tipo.maoDeObra
        ("RECURSOS EM OPERACAO MAO DE OBRA X RECURSOS EM OPERACAO EQUIPAMENTO".data) =
      some (0, 35)
    ∧ recortaBloco Tipo.maoDeObra ("RECURSOS EM OPERACAO MAO DE OBRA FIM".data) =
      some (0, 36)
    ∧ recortaBloco Tipo.equipamento ("xx RECURSOS EM OPERACAO EQUIPAMENTO yy".data) =
      some (3, 38) := by
  refine ⟨?_, ?_, ?_⟩
  · exact ((c7_localizador_recuo
      ("RECURSOS EM OPERACAO MAO DE OBRA X RECURSOS EM OPERACAO EQUIPAMENTO".data)).1
      0 35 (by decide) (by decide)).2.2
  · exact (c7_localizador_recuo ("RECURSOS EM OPERACAO MAO DE OBRA FIM".data)).2.2.1
      Tipo.maoDeObra 0 (by decide) (by decide)
  · exact (c7_localizador_recuo ("xx RECURSOS EM OPERACAO EQUIPAMENTO yy".data)).2.2.1
      Tipo.equipamento 3 (by decide) (by decide)

/-! ## Claims about the date extractor -/

/-- C8 counterexample: the claim's fallback pattern (two digits, slash, two
digits, slash, four digits, with no boundary requirement) matches
`"111/11/1111"` at offset 1, yet on that one-line document the code returns
the sentinel, because the regex also demands word boundaries. -/
theorem c8_contraexemplo :
    extrairDataRdo ("111/11/1111".data) = "Data não encontrada".data
    ∧ buscaDataSimples ("111/11/1111".data) = some ("11/11/1111".data)
    ∧ (quebraLinhas ("111/11/1111".data)).length < 11 := by
  refine ⟨by decide, by decide, by decide⟩

/-- C8 amended: line index 10, trimmed, is returned whenever it exists and
is non-empty; with at least 11 lines and a blank line 10 the sentinel is
returned; with fewer than 11 lines the first match of the date pattern —
delimited by word boundaries, i.e. not adjacent to a letter, digit or
underscore — over the first 30 lines is returned, or the sentinel when
there is none. -/
theorem c8_regra_data_emendada :
    ∀ texto : List Char,
      ((quebraLinhas texto).get? 10 = none ↔ (quebraLinhas texto).length < 11)
      ∧ (∀ l, (quebraLinhas texto).get? 10 = some l →
          (apararLC l ≠ [] → extrairDataRdo texto = apararLC l)
          ∧ (apararLC l = [] → extrairDataRdo texto = "Data não encontrada".data))
      ∧ ((quebraLinhas texto).get? 10 = none →
          (∀ m, buscaData (juntaQuebras ((quebraLinhas texto).take 30)) = some m →
            extrairDataRdo texto = m)
          ∧ (buscaData (juntaQuebras ((quebraLinhas texto).take 30)) = none →
            extrairDataRdo texto = "Data não encontrada".data)) := by
  intro texto
  refine ⟨?_, ?_, ?_⟩
  · rw [List.get?_eq_none]
    omega
  · intro l hl
    constructor
    · intro hne
      unfold extrairDataRdo
      dsimp only
      rw [hl]
      dsimp only
      rw [if_neg (by rwa [List.isEmpty_iff])]
    · intro hvazio
      unfold extrairDataRdo
      dsimp only
      rw [hl]
      dsimp only
      rw [if_pos (by rwa [List.isEmpty_iff])]
  · intro hnone
    constructor
    · intro m hm
      unfold extrairDataRdo
      dsimp only
      rw [hnone]
      dsimp only
      rw [hm]
    · intro hm
      unfold extrairDataRdo
      dsimp only
      rw [hnone]
      dsimp only
      rw [hm]

/-- Witness for C8's amended claim: an 11-plus-line document returns line
index 10 trimmed; a short document returns the boundary-delimited date
match; a short document with no match returns the sentinel. -/
theorem c8_regra_data_emendada_witness :
    extrairDataRdo ("0\n1\n2\n3\n4\n5\n6\n7\n8\n9\n 10/05/2024 \nresto".data) =
      "10/05/2024".data
    ∧ extrairDataRdo ("x 11/11/1111".data) = "11/11/1111".data
    ∧ extrairDataRdo ("sem data".data) = "Data não encontrada".data := by
  refine ⟨?_, ?_, ?_⟩
  · have h := ((c8_regra_data_emendada
      ("0\n1\n2\n3\n4\n5\n6\n7\n8\n9\n 10/05/2024 \nresto".data)).2.1
      (" 10/05/2024 ".data) (by decide)).1 (by decide)
    rw [h]
    decide
  · exact ((c8_regra_data_emendada ("x 11/11/1111".data)).2.2 (by decide)).1
      ("11/11/1111".data) (by decide)
  · exact ((c8_regra_data_emendada ("sem data".data)).2.2 (by decide)).2 (by decide)

/-! ## Claim about the batch orchestrator -/

theorem processa_acumulador (parse : String → String → Tipo → List Registro) :
    ∀ (files : List (String × Except String String))
      (acc : List Registro × List Inconsistencia),
      files.foldl (processaUm parse) acc =
        (acc.1 ++ (files.map (contribRegistros parse)).flatten,
         acc.2 ++ (files.map (contribInconsistencias parse)).flatten) := by
  intro files
  induction files with
  | nil => intro acc; simp
  | cons f fs ih =>
    intro acc
    rw [List.foldl_cons, ih]
    obtain ⟨nome, conteudo⟩ := f
    cases conteudo with
    | error e =>
      simp [processaUm, contribRegistros, contribInconsistencias]
    | ok texto =>
      by_cases hvazio : parse texto nome .maoDeObra = [] ∧ parse texto nome .equipamento = []
      · simp [processaUm, contribRegistros, contribInconsistencias, hvazio]
      · simp [processaUm, contribRegistros, contribInconsistencias, hvazio]

/-- C9: the batch output is exactly the concatenation of per-document
contributions — a document whose two sections are both empty contributes
one inconsistency row and no records, a document with records contributes
its Labor records followed by its Equipment records, and a document whose
text extraction raises contributes one `[ERRO]` row carrying the error text
without disturbing the other documents; a concrete 3-document batch whose
second document raises illustrates the isolation. -/
theorem c9_isolamento_lote :
    (∀ (parse : String → String → Tipo → List Registro)
      (files : List (String × Except String String)),
      processarArquivos parse files =
        ((files.map (contribRegistros parse)).flatten,
         (files.map (contribInconsistencias parse)).flatten))
    ∧ processarArquivos
        (fun t na tp => if t = "SECAO" then [exemploRegistro na tp] else [])
        [("doc1", .ok "SECAO"), ("doc2", .error "falha de leitura"), ("doc3", .ok "SECAO")] =
      ([exemploRegistro "doc1" .maoDeObra, exemploRegistro "doc1" .equipamento,
        exemploRegistro "doc3" .maoDeObra, exemploRegistro "doc3" .equipamento],
       [{ nomeArquivo := "doc2", linha := "[ERRO] falha de leitura" }])
    ∧ processarArquivos (fun _ _ _ => []) [("vazio", .ok "x")] =
      ([], [{ nomeArquivo := "vazio", linha := "[BLOCOS NÃO ENCONTRADOS OU SEM PADRÃO]" }]) := by
  refine ⟨?_, by decide, by decide⟩
  intro parse files
  unfold processarArquivos
  rw [processa_acumulador parse files ([], [])]
  simp

end RDO
